import Mathlib

/-!
Shallow embedding of the conflict-safe append-and-upload core of the
book-wishlist-writer repository (src/app/github_client.py and the tail of
src/app/handler.py).

The remote store is abstracted as two oracle streams: putResponses gives the
remote answer to the i-th PUT attempt, getResponses the answer to the i-th
refresh GET issued from inside the retry loop.  The client functions return
the list of observable events (write attempts with the exact content, message
and sha sent; backoff sleeps with their duration; refresh reads) together with
the outcome (returned result, raised error, or the implicit None return).
-/

namespace BookWishlist

/-- Opaque content hash (the sha token of the remote store). -/
abbrev Sha := Nat

/-- Remote response to one PUT (create-or-update) attempt. -/
inductive PutResp where
  | ok (newSha : Sha)
  | conflict
  | netErr (msg : String)
deriving DecidableEq

/-- Remote response to one refresh GET issued inside the retry loop.
netErr models get_file_content raising a RequestException. -/
inductive GetResp where
  | found (content : String) (sha : Sha)
  | absent
  | netErr
deriving DecidableEq

/-- Observable events of a run: remote reads, write attempts (with the exact
content, commit message and sha sent) and backoff sleeps (with duration). -/
inductive Ev where
  | reqGet
  | reqPut (content : String) (message : String) (sha : Option Sha)
  | sleep (secs : Nat)
deriving DecidableEq

/-- How a call to create_or_update_file terminates: a returned result, a
raised conflict-exhaustion Exception, a re-raised transport error, or the
implicit None return when the loop body never runs. -/
inductive Outcome where
  | ok (newSha : Sha)
  | conflictExceeded
  | transportFailed (msg : String)
  | noResult
deriving DecidableEq

/-- Models the Python test s.endswith, applied to a single newline:
true iff the last character of s is a newline. -/
def endswithNL (s : String) : Bool := s.data.getLast? == some '\n'

/-- The retry loop of GitHubClient.create_or_update_file
(src/app/github_client.py lines 90-130), one constructor case per remaining
fuel.  Arguments: remaining attempts including the current one, the Python
attempt index k, the number of refresh GETs already issued, the current sha.
On a 409/422 conflict with attempts remaining the code sleeps 2^k seconds and
refreshes the sha via get_file_content; if that read finds the file the new
sha is adopted and the loop continues; if it reports the file absent or
raises, control falls through to response.raise_for_status respectively the
except-branch, which sleeps another 2^k seconds and retries with the old sha.
On a transport error the code sleeps 2^k and retries unchanged; on the last
attempt a conflict raises the Conflict Exception and a transport error is
re-raised. -/
def cufGo (puts : Nat → PutResp) (gets : Nat → GetResp) (content message : String) :
    Nat → Nat → Nat → Option Sha → List Ev × Outcome
  | 0, _, _, _ => ([], .noResult)
  | rem + 1, k, g, sha =>
    match puts k with
    | .ok s => ([.reqPut content message sha], .ok s)
    | .conflict =>
      if rem = 0 then
        ([.reqPut content message sha], .conflictExceeded)
      else
        match gets g with
        | .found _ sha' =>
          let r := cufGo puts gets content message rem (k + 1) (g + 1) (some sha')
          (.reqPut content message sha :: .sleep (2 ^ k) :: .reqGet :: r.1, r.2)
        | .absent =>
          let r := cufGo puts gets content message rem (k + 1) (g + 1) sha
          (.reqPut content message sha :: .sleep (2 ^ k) :: .reqGet :: .sleep (2 ^ k) :: r.1,
            r.2)
        | .netErr =>
          let r := cufGo puts gets content message rem (k + 1) (g + 1) sha
          (.reqPut content message sha :: .sleep (2 ^ k) :: .reqGet :: .sleep (2 ^ k) :: r.1,
            r.2)
    | .netErr msg =>
      if rem = 0 then
        ([.reqPut content message sha], .transportFailed msg)
      else
        let r := cufGo puts gets content message rem (k + 1) g sha
        (.reqPut content message sha :: .sleep (2 ^ k) :: r.1, r.2)

/-- GitHubClient.create_or_update_file: run the retry loop for max_retries
attempts starting at attempt 0 with the caller-supplied sha. -/
def create_or_update_file (puts : Nat → PutResp) (gets : Nat → GetResp)
    (content message : String) (sha : Option Sha) (max_retries : Nat) :
    List Ev × Outcome :=
  cufGo puts gets content message max_retries 0 0 sha

/-- The merge step of GitHubClient.append_to_file (lines 143-161): given the
result of the initial get_file_content (decoded existing text and sha, or none
when absent), produce the content submitted and the sha passed along.  If the
file exists, a newline is appended to a nonempty existing text lacking one,
the new text is concatenated, and the existing sha is carried forward;
otherwise the new text stands alone with no sha.  Finally a trailing newline
is added when the result lacks one. -/
def appendPayload (file_info : Option (String × Sha)) (content_to_append : String) :
    String × Option Sha :=
  let rawsha :=
    match file_info with
    | some (existing_content, sha) =>
      let existing :=
        if existing_content ≠ "" ∧ endswithNL existing_content = false then
          existing_content ++ "\n"
        else
          existing_content
      (existing ++ content_to_append, some sha)
    | none => (content_to_append, none)
  if endswithNL rawsha.1 then rawsha else (rawsha.1 ++ "\n", rawsha.2)

/-- GitHubClient.append_to_file: one initial read (its result is the
file_info argument), the merge step, then create_or_update_file with the
default max_retries of 5. -/
def append_to_file (puts : Nat → PutResp) (gets : Nat → GetResp)
    (file_info : Option (String × Sha)) (content_to_append message : String) :
    List Ev × Outcome :=
  let p := appendPayload file_info content_to_append
  let r := create_or_update_file puts gets p.1 message p.2 5
  (.reqGet :: r.1, r.2)

/-- GitHubClient.upload_image: one initial read for the sha only, then
create_or_update_file with the image bytes unchanged and max_retries 5. -/
def upload_image (puts : Nat → PutResp) (gets : Nat → GetResp)
    (file_info : Option (String × Sha)) (image_data message : String) :
    List Ev × Outcome :=
  let sha := file_info.map Prod.snd
  let r := create_or_update_file puts gets image_data message sha 5
  (.reqGet :: r.1, r.2)

/-- Models the Python membership test pat in s on strings: true iff pat
occurs as a contiguous substring.  Defined over the underlying char lists. -/
def inContains (pat : List Char) : List Char → Bool
  | [] => pat.isEmpty
  | c :: l => pat.isPrefixOf (c :: l) || inContains pat l

/-- The message of the Exception raised on conflict exhaustion
(github_client.py line 118). -/
def conflictMsg (path : String) (max_retries : Nat) : String :=
  "Conflict updating " ++ path ++ " after " ++ toString max_retries ++ " attempts"

/-- The message of the exception surfaced by a create_or_update_file call,
or none when the call returns normally (including the implicit None return). -/
def raisedMsg (path : String) (max_retries : Nat) : Outcome → Option String
  | .conflictExceeded => some (conflictMsg path max_retries)
  | .transportFailed msg => some msg
  | _ => none

/-- API response of the Lambda handler: status code, user-visible message and
committed paths (listed in the body only on success). -/
structure ApiResponse where
  statusCode : Nat
  message : String
  commits : List String
deriving DecidableEq

/-- The per-image loop of lambda_handler (handler.py lines 276-302): each
image is processed inside try/except; a failure (download or upload) is
logged and skipped, a success appends its path to commits. -/
def imageLoop (results : List (Except String String)) : List String :=
  results.foldl
    (fun commits r =>
      match r with
      | .ok p => commits ++ [p]
      | .error _ => commits)
    []

/-- The tail of lambda_handler (handler.py lines 276-350): run the image
loop, then attempt the wishlist append; when the append raises, an error
message containing the word Conflict maps to a 409 please-retry response and
anything else is re-raised and caught by the outer handler as a generic 500;
otherwise the 200 success response lists the commits. -/
def lambda_handler_tail (image_results : List (Except String String))
    (wishlist_path : String) (append_out : Outcome) (max_retries : Nat) :
    ApiResponse :=
  let commits := imageLoop image_results
  match raisedMsg wishlist_path max_retries append_out with
  | none => ⟨200, "Tweet added to wishlist", commits ++ [wishlist_path]⟩
  | some msg =>
    if inContains "Conflict".data msg.data then
      ⟨409, "Concurrent update conflict, please retry", []⟩
    else
      ⟨500, "Internal server error", []⟩

/-- State of the remote store for the concurrency scenario: a fresh-sha
counter and the current file (content and sha), if any. -/
structure StoreSt where
  nextSha : Sha
  file : Option (String × Sha)
deriving DecidableEq

/-- Compare-and-swap semantics of the remote PUT: a create (no sha) succeeds
only on an absent path, an update succeeds only when the supplied sha equals
the current one; every other combination is rejected as a conflict (the
remote 409/422 class). A successful write installs the content under a fresh sha. -/
def casPut (st : StoreSt) (content : String) (sha : Option Sha) : PutResp × StoreSt :=
  match st.file, sha with
  | none, none => (.ok st.nextSha, ⟨st.nextSha + 1, some (content, st.nextSha)⟩)
  | none, some _ => (.conflict, st)
  | some _, none => (.conflict, st)
  | some (_, v), some s =>
    if s = v then (.ok st.nextSha, ⟨st.nextSha + 1, some (content, st.nextSha)⟩)
    else (.conflict, st)

/-- Remote GET semantics: the current file, or absent. -/
def casGet (st : StoreSt) : GetResp :=
  match st.file with
  | some (c, v) => .found c v
  | none => .absent

/-- Concurrency scenario, client A: its single write attempt is accepted. -/
def lostPutsA : Nat → PutResp := fun _ => .ok 0

/-- Concurrency scenario, client A: never refreshes. -/
def lostGetsA : Nat → GetResp := fun _ => .absent

/-- Concurrency scenario, client B: the first write attempt is rejected with
a conflict, the retry is accepted. -/
def lostPutsB : Nat → PutResp := fun k => if k = 0 then .conflict else .ok 1

/-- Concurrency scenario, client B: the refresh read after the conflict sees
the file written by client A. -/
def lostGetsB : Nat → GetResp := fun _ => .found "A\n" 0

/-- Concurrency scenario: the store before any write. -/
def store0 : StoreSt := ⟨0, none⟩

/-- Concurrency scenario: the store after the accepted write of client A. -/
def store1 : StoreSt := ⟨1, some ("A\n", 0)⟩

/-- Concurrency scenario: the store after the accepted retry of client B. -/
def store2 : StoreSt := ⟨2, some ("B\n", 1)⟩

/-- Oracle streams for witnesses: every write attempt is rejected with a
conflict. -/
def allConflict : Nat → PutResp := fun _ => .conflict

/-- Oracle streams for witnesses: every refresh read finds the file. -/
def allFound : Nat → GetResp := fun _ => .found "x" 7

/-- Oracle streams for witnesses: every refresh read reports the file absent. -/
def allAbsent : Nat → GetResp := fun _ => .absent

/-- Oracle streams for witnesses: every write attempt succeeds. -/
def allOk : Nat → PutResp := fun _ => .ok 0

/-- Oracle streams for counterexamples: every write attempt fails with a
transport error whose message does not mention a conflict. -/
def allNetErr : Nat → PutResp := fun _ => .netErr "Read timed out"

theorem data_ne_nil {t : String} (h : t ≠ "") : t.data ≠ [] := by
  intro hd
  exact h (String.ext hd)

theorem endswithNL_append {t : String} (x : String) (h : t ≠ "") :
    endswithNL (x ++ t) = endswithNL t := by
  unfold endswithNL
  rw [String.data_append, List.getLast?_append]
  cases hg : t.data.getLast? with
  | none => exact absurd (List.getLast?_eq_none_iff.mp hg) (data_ne_nil h)
  | some a => rfl

theorem endswithNL_append_nl (s : String) : endswithNL (s ++ "\n") = true := by
  unfold endswithNL
  rw [String.data_append]
  have hd : "\n".data = ['\n'] := rfl
  rw [hd, List.getLast?_concat]
  rfl

theorem endswithNL_ensure (r : String) :
    endswithNL (if endswithNL r then r else r ++ "\n") = true := by
  cases h : endswithNL r <;> simp [h, endswithNL_append_nl]

theorem cufGo_head (puts : Nat → PutResp) (gets : Nat → GetResp)
    (content message : String) (rem k g : Nat) (sha : Option Sha) :
    (cufGo puts gets content message (rem + 1) k g sha).1.head? =
      some (.reqPut content message sha) := by
  unfold cufGo
  cases puts k with
  | ok s => rfl
  | conflict =>
    by_cases h : rem = 0
    · simp [h]
    · simp only [if_neg h]
      cases gets g <;> rfl
  | netErr msg =>
    by_cases h : rem = 0
    · simp [h]
    · simp [h]

theorem cufGo_put_content (puts : Nat → PutResp) (gets : Nat → GetResp)
    (content message : String) :
    ∀ (rem k g : Nat) (sha : Option Sha) (c' m' : String) (sh' : Option Sha),
      Ev.reqPut c' m' sh' ∈ (cufGo puts gets content message rem k g sha).1 →
      c' = content ∧ m' = message := by
  intro rem
  induction rem with
  | zero =>
    intro k g sha c' m' sh' h
    simp [cufGo] at h
  | succ n ih =>
    intro k g sha c' m' sh' h
    unfold cufGo at h
    cases hp : puts k with
    | ok s =>
      rw [hp] at h
      simp at h
      exact ⟨h.1, h.2.1⟩
    | conflict =>
      rw [hp] at h
      by_cases hz : n = 0
      · simp [hz] at h
        exact ⟨h.1, h.2.1⟩
      · simp only [if_neg hz] at h
        cases hg : gets g <;> rw [hg] at h <;> simp at h
        all_goals
          rcases h with h | h
          · exact ⟨h.1, h.2.1⟩
          · exact ih _ _ _ c' m' sh' h
    | netErr msg =>
      rw [hp] at h
      by_cases hz : n = 0
      · simp [hz] at h
        exact ⟨h.1, h.2.1⟩
      · simp only [if_neg hz] at h
        simp at h
        rcases h with h | h
        · exact ⟨h.1, h.2.1⟩
        · exact ih _ _ _ c' m' sh' h

theorem cufGo_conflict_exhaust (puts : Nat → PutResp) (gets : Nat → GetResp)
    (content message : String)
    (hp : ∀ j, puts j = .conflict) (hg : ∀ j, ∃ c s, gets j = .found c s) :
    ∀ (rem k g : Nat) (sha : Option Sha),
      (cufGo puts gets content message (rem + 1) k g sha).2 = .conflictExceeded := by
  intro rem
  induction rem with
  | zero =>
    intro k g sha
    simp [cufGo, hp k]
  | succ n ih =>
    intro k g sha
    obtain ⟨c, s, hgg⟩ := hg g
    have h2 := ih (k + 1) (g + 1) (some s)
    rw [cufGo, hp k, hgg]
    simpa using h2

theorem isPrefixOf_append (p : List Char) :
    ∀ l r : List Char, p.isPrefixOf l = true → p.isPrefixOf (l ++ r) = true := by
  induction p with
  | nil =>
    intro l r _
    simp [List.isPrefixOf]
  | cons a p' ih =>
    intro l r h
    cases l with
    | nil => exact Bool.noConfusion h
    | cons b l' =>
      rw [List.cons_append]
      show (a == b && p'.isPrefixOf (l' ++ r)) = true
      rw [show ((a :: p').isPrefixOf (b :: l')) = (a == b && p'.isPrefixOf l') from rfl] at h
      rw [Bool.and_eq_true] at h ⊢
      exact ⟨h.1, ih l' r h.2⟩

theorem inContains_of_prefixOf (pat l : List Char) (hne : pat ≠ [])
    (h : pat.isPrefixOf l = true) : inContains pat l = true := by
  cases l with
  | nil =>
    cases pat with
    | nil => exact absurd rfl hne
    | cons a p' => simp [List.isPrefixOf] at h
  | cons c l' => simp [inContains, h]

theorem appendPayload_none (t : String) :
    appendPayload none t = if endswithNL t then (t, none) else (t ++ "\n", none) := rfl

theorem appendPayload_some (c : String) (sh : Sha) (t : String) :
    appendPayload (some (c, sh)) t =
      if endswithNL ((if c ≠ "" ∧ endswithNL c = false then c ++ "\n" else c) ++ t) then
        ((if c ≠ "" ∧ endswithNL c = false then c ++ "\n" else c) ++ t, some sh)
      else
        (((if c ≠ "" ∧ endswithNL c = false then c ++ "\n" else c) ++ t) ++ "\n", some sh) :=
  rfl

theorem ensure_fst (X : String) (sh : Option Sha) :
    (if endswithNL X then (X, sh) else (X ++ "\n", sh) : String × Option Sha).1 =
      if endswithNL X then X else X ++ "\n" := by
  cases h : endswithNL X <;> simp [h]

theorem ne_empty_of_endswithNL {t : String} (h : endswithNL t = true) : t ≠ "" := by
  intro he
  subst he
  exact Bool.noConfusion h

theorem inContains_conflictMsg (path : String) (n : Nat) :
    inContains "Conflict".data (conflictMsg path n).data = true := by
  apply inContains_of_prefixOf _ _ (by decide)
  have hdata : (conflictMsg path n).data =
      "Conflict updating ".data ++
        (path.data ++ (" after ".data ++ ((toString n).data ++ " attempts".data))) := by
    simp [conflictMsg, List.append_assoc]
  rw [hdata]
  exact isPrefixOf_append _ _ _ (by decide)

/-- Claim C9: calling create_or_update_file with max_retries = 0 never runs
the loop body: the function performs no write attempt, raises nothing, and
returns None (the implicit return of the Python function). -/
theorem zero_retries_returns_none (puts : Nat → PutResp) (gets : Nat → GetResp)
    (content message : String) (sha : Option Sha) :
    create_or_update_file puts gets content message sha 0 = ([], Outcome.noResult) := rfl

/-- Claim C6: with max_retries = 1 an immediate conflict raises the
conflict-exhaustion error at once: the complete event trace is the single
write attempt, with no backoff sleep and no refresh read. -/
theorem single_attempt_conflict_fails_fast (puts : Nat → PutResp) (gets : Nat → GetResp)
    (content message : String) (sha : Option Sha) (h : puts 0 = PutResp.conflict) :
    create_or_update_file puts gets content message sha 1 =
      ([Ev.reqPut content message sha], Outcome.conflictExceeded) := by
  unfold create_or_update_file cufGo
  rw [h]
  rfl

theorem single_attempt_conflict_fails_fast_witness :
    create_or_update_file allConflict allFound "c" "m" none 1 =
      ([Ev.reqPut "c" "m" none], Outcome.conflictExceeded) :=
  single_attempt_conflict_fails_fast allConflict allFound "c" "m" none rfl

/-- Claim C2: on a write attempt k rejected with a conflict while attempts
remain, the client sleeps 2 to the k seconds, issues one refresh read, adopts
the sha it returns as the new expected hash and retries with the same content
and message; and a call all of whose attempts are rejected with conflicts
(with the file readable on every refresh) ends with the conflict-exhaustion
error instead of returning a result. -/
theorem conflict_retry_refreshes_sha_then_exhaustion_raises
    (puts : Nat → PutResp) (gets : Nat → GetResp) (content message : String) :
    (∀ (rem k g : Nat) (sha : Option Sha) (c' : String) (s' : Sha),
      puts k = PutResp.conflict → gets g = GetResp.found c' s' →
      cufGo puts gets content message (rem + 1 + 1) k g sha =
        (Ev.reqPut content message sha :: Ev.sleep (2 ^ k) :: Ev.reqGet ::
            (cufGo puts gets content message (rem + 1) (k + 1) (g + 1) (some s')).1,
          (cufGo puts gets content message (rem + 1) (k + 1) (g + 1) (some s')).2)) ∧
    (∀ (rem k g : Nat) (sha : Option Sha) (c' : String) (s' : Sha),
      puts k = PutResp.conflict → gets g = GetResp.found c' s' →
      (cufGo puts gets content message (rem + 1 + 1) k g sha).1.tail.tail.tail.head? =
        some (Ev.reqPut content message (some s'))) ∧
    (∀ (n : Nat) (sha : Option Sha), 1 ≤ n →
      (∀ j, puts j = PutResp.conflict) →
      (∀ j, ∃ c' s', gets j = GetResp.found c' s') →
      (create_or_update_file puts gets content message sha n).2 =
        Outcome.conflictExceeded) := by
  refine ⟨?_, ?_, ?_⟩
  · intro rem k g sha c' s' hp hg
    rw [cufGo, hp, hg]
    simp
  · intro rem k g sha c' s' hp hg
    rw [cufGo, hp, hg]
    simpa using cufGo_head puts gets content message rem (k + 1) (g + 1) (some s')
  · intro n sha h1 hpp hgg
    cases n with
    | zero => omega
    | succ r => exact cufGo_conflict_exhaust puts gets content message hpp hgg r 0 0 sha

theorem conflict_retry_witness :
    cufGo allConflict allFound "c" "m" 2 0 0 none =
      (Ev.reqPut "c" "m" none :: Ev.sleep 1 :: Ev.reqGet ::
          (cufGo allConflict allFound "c" "m" 1 1 1 (some 7)).1,
        (cufGo allConflict allFound "c" "m" 1 1 1 (some 7)).2) ∧
    (create_or_update_file allConflict allFound "c" "m" none 3).2 =
      Outcome.conflictExceeded :=
  ⟨(conflict_retry_refreshes_sha_then_exhaustion_raises allConflict allFound "c" "m").1
      0 0 0 none "x" 7 rfl rfl,
   (conflict_retry_refreshes_sha_then_exhaustion_raises allConflict allFound "c" "m").2.2
      3 none (by decide) (fun _ => rfl) (fun _ => ⟨"x", 7, rfl⟩)⟩

/-- Claim C10: when the refresh read of a conflicted attempt reports the file
absent, the loop keeps the previously held stale sha (it does not switch to
create mode by dropping it) and sleeps a second time, via the transport-error
branch, before retrying; the next write attempt again carries the stale sha. -/
theorem conflict_refresh_absent_keeps_stale_sha
    (puts : Nat → PutResp) (gets : Nat → GetResp) (content message : String) :
    (∀ (rem k g : Nat) (sha : Option Sha),
      puts k = PutResp.conflict → gets g = GetResp.absent →
      cufGo puts gets content message (rem + 1 + 1) k g sha =
        (Ev.reqPut content message sha :: Ev.sleep (2 ^ k) :: Ev.reqGet ::
            Ev.sleep (2 ^ k) ::
            (cufGo puts gets content message (rem + 1) (k + 1) (g + 1) sha).1,
          (cufGo puts gets content message (rem + 1) (k + 1) (g + 1) sha).2)) ∧
    (∀ (rem k g : Nat) (sha : Option Sha),
      puts k = PutResp.conflict → gets g = GetResp.absent →
      (cufGo puts gets content message (rem + 1 + 1) k g sha).1.tail.tail.tail.tail.head? =
        some (Ev.reqPut content message sha)) := by
  constructor
  · intro rem k g sha hp hg
    rw [cufGo, hp, hg]
    simp
  · intro rem k g sha hp hg
    rw [cufGo, hp, hg]
    simpa using cufGo_head puts gets content message rem (k + 1) (g + 1) sha

theorem stale_sha_witness :
    cufGo allConflict allAbsent "c" "m" 2 0 0 (some 9) =
      (Ev.reqPut "c" "m" (some 9) :: Ev.sleep 1 :: Ev.reqGet :: Ev.sleep 1 ::
          (cufGo allConflict allAbsent "c" "m" 1 1 1 (some 9)).1,
        (cufGo allConflict allAbsent "c" "m" 1 1 1 (some 9)).2) ∧
    (cufGo allConflict allAbsent "c" "m" 2 0 0 (some 9)).1.tail.tail.tail.tail.head? =
      some (Ev.reqPut "c" "m" (some 9)) :=
  ⟨(conflict_refresh_absent_keeps_stale_sha allConflict allAbsent "c" "m").1
      0 0 0 (some 9) rfl rfl,
   (conflict_refresh_absent_keeps_stale_sha allConflict allAbsent "c" "m").2
      0 0 0 (some 9) rfl rfl⟩

/-- Claim C3: appending to an existing nonempty text with no trailing
newline submits the existing text, one added newline, the new text, and a
trailing newline exactly when the (nonempty) new text lacks one, passing the
sha of the existing file as the expected hash; in particular appending line2 to a
file holding line1 with no trailing newline submits line1, newline, line2,
newline. -/
theorem append_existing_merges_with_separator (c : String) (sh : Sha) (t : String)
    (hc : c ≠ "") (hnl : endswithNL c = false) :
    (appendPayload (some (c, sh)) t).2 = some sh ∧
    (t ≠ "" → (appendPayload (some (c, sh)) t).1 =
      (if endswithNL t then (c ++ "\n") ++ t else ((c ++ "\n") ++ t) ++ "\n")) ∧
    appendPayload (some ("line1", sh)) "line2" = ("line1\nline2\n", some sh) := by
  refine ⟨?_, ?_, rfl⟩
  · rw [appendPayload_some]
    split <;> split <;> rfl
  · intro ht
    rw [appendPayload_some]
    simp only [if_pos (And.intro hc hnl)]
    rw [endswithNL_append (c ++ "\n") ht]
    cases hE : endswithNL t <;> simp [hE]

theorem append_existing_witness :
    (appendPayload (some ("line1", 3)) "line2").2 = some 3 ∧
    appendPayload (some ("line1", 3)) "line2" = ("line1\nline2\n", some 3) :=
  ⟨(append_existing_merges_with_separator "line1" 3 "line2" (by decide) (by decide)).1,
   (append_existing_merges_with_separator "line1" 3 "line2" (by decide) (by decide)).2.2⟩

/-- Claim C4: appending to an absent path submits exactly the new text plus
one trailing newline when it lacks one, and the new text unchanged when it
already ends with one, with no expected sha and no merge with existing
content; every submitted append payload ends with a newline, and when both
the existing text and the new text already end with one nothing is added. -/
theorem append_absent_and_final_newline (t : String) :
    (endswithNL t = false → appendPayload none t = (t ++ "\n", none)) ∧
    (endswithNL t = true → appendPayload none t = (t, none)) ∧
    (∀ file_info, endswithNL (appendPayload file_info t).1 = true) ∧
    (∀ (e : String) (s : Sha), endswithNL e = true → endswithNL t = true →
      appendPayload (some (e, s)) t = (e ++ t, some s)) := by
  refine ⟨?_, ?_, ?_, ?_⟩
  · intro h
    rw [appendPayload_none, if_neg]
    simp [h]
  · intro h
    rw [appendPayload_none, if_pos]
    simp [h]
  · intro file_info
    match file_info with
    | none =>
      rw [appendPayload_none, ensure_fst]
      exact endswithNL_ensure t
    | some (e, s) =>
      rw [appendPayload_some, ensure_fst]
      exact endswithNL_ensure _
  · intro e s he ht
    have hne : ¬(e ≠ "" ∧ endswithNL e = false) := by
      intro hand
      rw [he] at hand
      exact Bool.noConfusion hand.2
    rw [appendPayload_some]
    simp only [if_neg hne]
    rw [endswithNL_append e (ne_empty_of_endswithNL ht), ht]
    simp

theorem append_absent_witness :
    appendPayload none "x" = ("x\n", none) ∧
    appendPayload none "y\n" = ("y\n", none) ∧
    endswithNL (appendPayload (some ("a", 2)) "x").1 = true ∧
    appendPayload (some ("a\n", 2)) "x\n" = ("a\n" ++ "x\n", some 2) :=
  ⟨(append_absent_and_final_newline "x").1 rfl,
   (append_absent_and_final_newline "y\n").2.1 rfl,
   (append_absent_and_final_newline "x").2.2.1 (some ("a", 2)),
   (append_absent_and_final_newline "x\n").2.2.2 "a\n" 2 rfl rfl⟩

/-- Claim C5: upload_image submits exactly the given bytes as the new
content on every write attempt, never merging the prior content, and passes
the sha of the existing file as the expected hash when the path exists and no sha
when it is absent. -/
theorem upload_replaces_content
    (puts : Nat → PutResp) (gets : Nat → GetResp)
    (file_info : Option (String × Sha)) (image_data message : String) :
    (upload_image puts gets file_info image_data message).1.head? = some Ev.reqGet ∧
    (upload_image puts gets file_info image_data message).1.tail.head? =
      some (Ev.reqPut image_data message (Option.map Prod.snd file_info)) ∧
    (∀ (c' m' : String) (sh' : Option Sha),
      Ev.reqPut c' m' sh' ∈ (upload_image puts gets file_info image_data message).1 →
      c' = image_data) ∧
    (∀ (b1 : String) (s : Sha), file_info = some (b1, s) →
      (upload_image puts gets file_info image_data message).1.tail.head? =
        some (Ev.reqPut image_data message (some s))) ∧
    (file_info = none →
      (upload_image puts gets file_info image_data message).1.tail.head? =
        some (Ev.reqPut image_data message none)) := by
  have h2 : ∀ fi : Option (String × Sha),
      (upload_image puts gets fi image_data message).1.tail.head? =
        some (Ev.reqPut image_data message (Option.map Prod.snd fi)) := by
    intro fi
    show (cufGo puts gets image_data message 5 0 0 (Option.map Prod.snd fi)).1.head? = _
    exact cufGo_head puts gets image_data message 4 0 0 _
  refine ⟨rfl, h2 file_info, ?_, ?_, ?_⟩
  · intro c' m' sh' h
    simp only [upload_image, create_or_update_file, List.mem_cons] at h
    rcases h with h | h
    · exact Ev.noConfusion h
    · exact (cufGo_put_content puts gets image_data message 5 0 0 _ c' m' sh' h).1
  · intro b1 s hfi
    subst hfi
    simpa using h2 (some (b1, s))
  · intro hfi
    subst hfi
    simpa using h2 none

theorem upload_replaces_witness :
    ("B2" : String) = "B2" ∧
    (upload_image allOk allAbsent (some ("B1", 4)) "B2" "m").1.tail.head? =
      some (Ev.reqPut "B2" "m" (some 4)) ∧
    (upload_image allOk allAbsent none "B2" "m").1.tail.head? =
      some (Ev.reqPut "B2" "m" none) :=
  ⟨(upload_replaces_content allOk allAbsent (some ("B1", 4)) "B2" "m").2.2.1
      "B2" "m" (some 4) (by decide),
   (upload_replaces_content allOk allAbsent (some ("B1", 4)) "B2" "m").2.2.2.1
      "B1" 4 rfl,
   (upload_replaces_content allOk allAbsent none "B2" "m").2.2.2.2 rfl⟩

/-- Claim C7 counterexample: an append whose retry budget is exhausted by
repeated transient transport errors is NOT mapped to the 409 please-retry
response: the re-raised transport error is caught by the outer handler and
answered with the generic 500 response, contradicting the claim for the
transport-error case. -/
theorem transport_exhaustion_gives_500 :
    (append_to_file allNetErr allAbsent none "entry" "m").2 =
      Outcome.transportFailed "Read timed out" ∧
    lambda_handler_tail [] "wishlist.md"
        (append_to_file allNetErr allAbsent none "entry" "m").2 5 =
      ⟨500, "Internal server error", []⟩ := by
  constructor
  · decide
  · decide

/-- Claim C7 as amended: exhaustion of the final append by repeated
conflicts raises an error whose message contains the word Conflict and is
mapped to the 409 please-retry response; exhaustion by transport errors
whose message does not contain that word is re-raised and surfaces as the
generic 500 response. -/
theorem exhaustion_response_mapping
    (imgs : List (Except String String)) (path : String) (n : Nat) (msg : String) :
    lambda_handler_tail imgs path Outcome.conflictExceeded n =
      ⟨409, "Concurrent update conflict, please retry", []⟩ ∧
    (inContains "Conflict".data msg.data = false →
      lambda_handler_tail imgs path (Outcome.transportFailed msg) n =
        ⟨500, "Internal server error", []⟩) := by
  constructor
  · show (if inContains "Conflict".data (conflictMsg path n).data then
          (⟨409, "Concurrent update conflict, please retry", []⟩ : ApiResponse)
        else ⟨500, "Internal server error", []⟩) =
      ⟨409, "Concurrent update conflict, please retry", []⟩
    rw [inContains_conflictMsg path n]
    rfl
  · intro h
    show (if inContains "Conflict".data msg.data then
          (⟨409, "Concurrent update conflict, please retry", []⟩ : ApiResponse)
        else ⟨500, "Internal server error", []⟩) =
      ⟨500, "Internal server error", []⟩
    rw [h]
    rfl

theorem exhaustion_response_witness :
    lambda_handler_tail [] "wishlist.md" Outcome.conflictExceeded 5 =
      ⟨409, "Concurrent update conflict, please retry", []⟩ ∧
    lambda_handler_tail [] "wishlist.md" (Outcome.transportFailed "Read timed out") 5 =
      ⟨500, "Internal server error", []⟩ :=
  ⟨(exhaustion_response_mapping [] "wishlist.md" 5 "Read timed out").1,
   (exhaustion_response_mapping [] "wishlist.md" 5 "Read timed out").2 (by decide)⟩

/-- Claim C8: a failure while downloading or uploading one image is skipped:
the handler result with the failing image in the list equals the result
without it (the remaining images are processed identically and the wishlist
append is still attempted), and when the append succeeds the response lists
the surviving image commits followed by the wishlist path. -/
theorem image_failure_skipped
    (pre post : List (Except String String)) (e : String)
    (path : String) (out : Outcome) (n : Nat) :
    lambda_handler_tail (pre ++ Except.error e :: post) path out n =
      lambda_handler_tail (pre ++ post) path out n ∧
    imageLoop (pre ++ Except.error e :: post) = imageLoop (pre ++ post) ∧
    (raisedMsg path n out = none →
      lambda_handler_tail (pre ++ Except.error e :: post) path out n =
        ⟨200, "Tweet added to wishlist", imageLoop (pre ++ post) ++ [path]⟩) := by
  have hloop : imageLoop (pre ++ Except.error e :: post) = imageLoop (pre ++ post) := by
    unfold imageLoop
    rw [List.foldl_append, List.foldl_append]
    rfl
  refine ⟨?_, hloop, ?_⟩
  · unfold lambda_handler_tail
    rw [hloop]
  · intro h
    unfold lambda_handler_tail
    rw [hloop, h]

theorem image_failure_witness :
    raisedMsg "w.md" 5 (Outcome.ok 0) = none ∧
    lambda_handler_tail ([Except.ok "a"] ++ Except.error "boom" :: [Except.ok "b"])
        "w.md" (Outcome.ok 0) 5 =
      ⟨200, "Tweet added to wishlist", imageLoop ([Except.ok "a"] ++ [Except.ok "b"]) ++ ["w.md"]⟩ :=
  ⟨rfl,
   (image_failure_skipped [Except.ok "a"] [Except.ok "b"] "boom" "w.md" (Outcome.ok 0) 5).2.2 rfl⟩

/-- Claim C1: the critical concurrency property fails on the code.  In the
concrete interleaving below, both append calls to the same initially absent
path start from an absent read, the create of client A is accepted, the
create of client B is rejected with a conflict, the retry of B refreshes only the sha from the
store and resends its previously merged payload, and the store accepts it.
Both calls return success, every oracle response agrees with the
compare-and-swap semantics of the store, yet the final file content is
the payload of client B alone: the appended text of client A has been silently lost,
because the retry does not re-read and re-merge the current content. -/
theorem interleaved_append_loses_first_text :
    append_to_file lostPutsA lostGetsA none "A" "mA" =
      ([Ev.reqGet, Ev.reqPut "A\n" "mA" none], Outcome.ok 0) ∧
    append_to_file lostPutsB lostGetsB none "B" "mB" =
      ([Ev.reqGet, Ev.reqPut "B\n" "mB" none, Ev.sleep 1, Ev.reqGet,
        Ev.reqPut "B\n" "mB" (some 0)], Outcome.ok 1) ∧
    casGet store0 = GetResp.absent ∧
    lostPutsA 0 = (casPut store0 "A\n" none).1 ∧
    (casPut store0 "A\n" none).2 = store1 ∧
    lostPutsB 0 = (casPut store1 "B\n" none).1 ∧
    (casPut store1 "B\n" none).2 = store1 ∧
    lostGetsB 0 = casGet store1 ∧
    lostPutsB 1 = (casPut store1 "B\n" (some 0)).1 ∧
    (casPut store1 "B\n" (some 0)).2 = store2 ∧
    store2.file = some ("B\n", 1) ∧
    inContains "A".data "B\n".data = false := by
  refine ⟨by decide, by decide, rfl, rfl, rfl, rfl, rfl, rfl, rfl, rfl, rfl, rfl⟩

end BookWishlist
